import Mathlib

/-!
Verification of the fault-mesh-tools geometry core and CLI conversion
pipelines, shallowly embedded over exact rational arithmetic.

The repository source under src/ contains the CLI modules
(fault_global_to_local.py, fault_local_to_global.py, fault_local_to_cubit.py,
tsurf2vtk.py); the numerical core (the meshops / faultmeshops module with
fit_plane_to_points, get_fault_rotation_matrix,
axis_angle_from_rotation_matrix, fault_global_to_local,
fault_local_to_global) is not part of src/, so those functions are modelled
from the specification, as marked in their doc comments.  Machine floats are
modelled by exact rationals, so tolerance clauses of the specification become
exact equalities or explicit bounds.
-/

namespace FaultMesh

/-- Three-dimensional vector with rational coordinates, modelling one
float64 coordinate triple of a PointSet. -/
@[ext] structure Vec3 where
  x : ℚ
  y : ℚ
  z : ℚ
deriving DecidableEq, Repr

namespace Vec3

def zero : Vec3 := ⟨0, 0, 0⟩

instance : Add Vec3 := ⟨fun a b => ⟨a.x + b.x, a.y + b.y, a.z + b.z⟩⟩

instance : Sub Vec3 := ⟨fun a b => ⟨a.x - b.x, a.y - b.y, a.z - b.z⟩⟩

instance : SMul ℚ Vec3 := ⟨fun c v => ⟨c * v.x, c * v.y, c * v.z⟩⟩

/-- Dot product of two vectors. -/
def dot (a b : Vec3) : ℚ := a.x * b.x + a.y * b.y + a.z * b.z

/-- Cross product of two vectors. -/
def cross (a b : Vec3) : Vec3 :=
  ⟨a.y * b.z - a.z * b.y, a.z * b.x - a.x * b.z, a.x * b.y - a.y * b.x⟩

/-- Squared Euclidean magnitude. -/
def normSq (a : Vec3) : ℚ := a.x ^ 2 + a.y ^ 2 + a.z ^ 2

theorem add_def (a b : Vec3) : a + b = ⟨a.x + b.x, a.y + b.y, a.z + b.z⟩ := rfl

theorem sub_def (a b : Vec3) : a - b = ⟨a.x - b.x, a.y - b.y, a.z - b.z⟩ := rfl

theorem smul_def (c : ℚ) (v : Vec3) : c • v = ⟨c * v.x, c * v.y, c * v.z⟩ := rfl

end Vec3

/-- Three-by-three rational matrix, row-major entries. -/
@[ext] structure Mat3 where
  m00 : ℚ
  m01 : ℚ
  m02 : ℚ
  m10 : ℚ
  m11 : ℚ
  m12 : ℚ
  m20 : ℚ
  m21 : ℚ
  m22 : ℚ
deriving DecidableEq, Repr

namespace Mat3

/-- Identity matrix. -/
def id : Mat3 := ⟨1, 0, 0, 0, 1, 0, 0, 0, 1⟩

instance : Add Mat3 :=
  ⟨fun a b =>
    ⟨a.m00 + b.m00, a.m01 + b.m01, a.m02 + b.m02,
     a.m10 + b.m10, a.m11 + b.m11, a.m12 + b.m12,
     a.m20 + b.m20, a.m21 + b.m21, a.m22 + b.m22⟩⟩

instance : SMul ℚ Mat3 :=
  ⟨fun c a =>
    ⟨c * a.m00, c * a.m01, c * a.m02,
     c * a.m10, c * a.m11, c * a.m12,
     c * a.m20, c * a.m21, c * a.m22⟩⟩

/-- Matrix product. -/
def mul (a b : Mat3) : Mat3 :=
  ⟨a.m00 * b.m00 + a.m01 * b.m10 + a.m02 * b.m20,
   a.m00 * b.m01 + a.m01 * b.m11 + a.m02 * b.m21,
   a.m00 * b.m02 + a.m01 * b.m12 + a.m02 * b.m22,
   a.m10 * b.m00 + a.m11 * b.m10 + a.m12 * b.m20,
   a.m10 * b.m01 + a.m11 * b.m11 + a.m12 * b.m21,
   a.m10 * b.m02 + a.m11 * b.m12 + a.m12 * b.m22,
   a.m20 * b.m00 + a.m21 * b.m10 + a.m22 * b.m20,
   a.m20 * b.m01 + a.m21 * b.m11 + a.m22 * b.m21,
   a.m20 * b.m02 + a.m21 * b.m12 + a.m22 * b.m22⟩

/-- Matrix transpose. -/
def transpose (a : Mat3) : Mat3 :=
  ⟨a.m00, a.m10, a.m20, a.m01, a.m11, a.m21, a.m02, a.m12, a.m22⟩

/-- Determinant by cofactor expansion along the first row. -/
def det (a : Mat3) : ℚ :=
  a.m00 * (a.m11 * a.m22 - a.m12 * a.m21)
  - a.m01 * (a.m10 * a.m22 - a.m12 * a.m20)
  + a.m02 * (a.m10 * a.m21 - a.m11 * a.m20)

/-- Trace of the matrix. -/
def trace (a : Mat3) : ℚ := a.m00 + a.m11 + a.m22

/-- Matrix-vector product. -/
def mulVec (a : Mat3) (v : Vec3) : Vec3 :=
  ⟨a.m00 * v.x + a.m01 * v.y + a.m02 * v.z,
   a.m10 * v.x + a.m11 * v.y + a.m12 * v.z,
   a.m20 * v.x + a.m21 * v.y + a.m22 * v.z⟩

/-- Skew-symmetric matrix of a vector, so that mulVec (skew a) b is the
cross product of a and b. -/
def skew (a : Vec3) : Mat3 :=
  ⟨0, -a.z, a.y, a.z, 0, -a.x, -a.y, a.x, 0⟩

theorem add_entries (a b : Mat3) :
    a + b =
      ⟨a.m00 + b.m00, a.m01 + b.m01, a.m02 + b.m02,
       a.m10 + b.m10, a.m11 + b.m11, a.m12 + b.m12,
       a.m20 + b.m20, a.m21 + b.m21, a.m22 + b.m22⟩ := rfl

theorem smul_entries (c : ℚ) (a : Mat3) :
    c • a =
      ⟨c * a.m00, c * a.m01, c * a.m02,
       c * a.m10, c * a.m11, c * a.m12,
       c * a.m20, c * a.m21, c * a.m22⟩ := rfl

/-- Adjugate (transpose of the cofactor matrix). -/
def adjugate (a : Mat3) : Mat3 :=
  ⟨a.m11 * a.m22 - a.m12 * a.m21,
   a.m02 * a.m21 - a.m01 * a.m22,
   a.m01 * a.m12 - a.m02 * a.m11,
   a.m12 * a.m20 - a.m10 * a.m22,
   a.m00 * a.m22 - a.m02 * a.m20,
   a.m02 * a.m10 - a.m00 * a.m12,
   a.m10 * a.m21 - a.m11 * a.m20,
   a.m01 * a.m20 - a.m00 * a.m21,
   a.m00 * a.m11 - a.m01 * a.m10⟩

end Mat3

/-- Canonical reference axis of the local frame (global Z), the axis that
RotationBuilder maps the fitted plane normal onto. -/
def reference_axis : Vec3 := ⟨0, 0, 1⟩

/-- Error raised by the plane fitter on degenerate input; carries the point
count for diagnostic context. -/
structure DegenerateInputError where
  npoints : ℕ
deriving DecidableEq, Repr

/-- Decidable collinearity test: with the first point as base, every pair of
difference vectors has zero cross product.  A list of coincident points is
collinear; the empty list is trivially collinear. -/
def isCollinear (ps : List Vec3) : Prop :=
  match ps with
  | [] => True
  | p :: rest =>
    ∀ q ∈ p :: rest, ∀ r ∈ p :: rest, Vec3.cross (q - p) (r - p) = Vec3.zero

instance instDecidableIsCollinear (ps : List Vec3) : Decidable (isCollinear ps) :=
  match ps with
  | [] => .isTrue trivial
  | _ :: _ => List.decidableBAll _ _

/-- Abstract collinearity: all points lie on one line (possibly degenerate,
covering coincident point sets) described by a base point and a direction. -/
def Collinear (ps : List Vec3) : Prop :=
  ∃ b d : Vec3, ∀ q ∈ ps, ∃ t : ℚ, q = b + t • d

/-- Centroid of a point list (zero vector for the empty list). -/
def centroid (ps : List Vec3) : Vec3 :=
  ((ps.length : ℚ)⁻¹) • (ps.foldr (fun p acc => p + acc) Vec3.zero)

/-- Modelled from the spec: meshops.fit_plane_to_points is absent from src/.
Origin is the centroid of the points; the plane normal is the singular vector
of least variance, whose value is irrational in general and is therefore kept
abstract as the parameter svd_normal.  The degeneracy check follows the
specification: fewer than 3 points, or all points collinear or coincident,
raises DegenerateInputError.  The eps tolerance is passed through rather than
consumed here, as the specification states. -/
def fit_plane_to_points (svd_normal : List Vec3 → Vec3) (points : List Vec3)
    (eps : ℚ) : Except DegenerateInputError (Vec3 × Vec3) :=
  if points.length < 3 ∨ isCollinear points then
    .error ⟨points.length⟩
  else
    .ok (svd_normal points, centroid points)

/-- Modelled from the spec: faultmeshops.get_fault_rotation_matrix is absent
from src/.  With a the cross product of normal and reference_axis and d their
dot product, the non-degenerate branch is the Rodrigues axis-angle formula
written square-root-free: for the unit axis a scaled by its inverse magnitude,
angle with sine equal to the magnitude of a and cosine d, the formula
I + sin K + (1 - cos) K squared collapses to
I + skew a + (1 / (1 + d)) skew a squared, because the squared magnitude of a
equals 1 - d squared for unit inputs.  The degenerate branch triggers when the
cross-product magnitude falls below cutoff_vecmag (compared via squared
magnitudes, equivalent for nonnegative cutoffs) and falls back to the identity
when d is nonnegative, or to the 180 degree rotation about the x axis (an axis
orthogonal to reference_axis) when d is negative, the choice determined by the
sign of the dot product as the specification prescribes. -/
def get_fault_rotation_matrix (normal : Vec3) (cutoff_vecmag : ℚ) : Mat3 :=
  let a := Vec3.cross normal reference_axis
  let d := Vec3.dot normal reference_axis
  if Vec3.normSq a < cutoff_vecmag ^ 2 then
    (if 0 ≤ d then Mat3.id else ⟨1, 0, 0, 0, -1, 0, 0, 0, -1⟩)
  else
    Mat3.id + Mat3.skew a + ((1 + d)⁻¹ • Mat3.mul (Mat3.skew a) (Mat3.skew a))

/-- The non-degenerate branch of get_fault_rotation_matrix written out for a
unit normal with components x, y, z. -/
def rodriguesBranch (x y z : ℚ) : Mat3 :=
  Mat3.id + Mat3.skew ⟨y, -x, 0⟩ +
    ((1 + z)⁻¹ • Mat3.mul (Mat3.skew ⟨y, -x, 0⟩) (Mat3.skew ⟨y, -x, 0⟩))

/-- Clamp a rational to the interval from -1 to 1. -/
def clampQ (q : ℚ) : ℚ := max (-1) (min 1 q)

/-- Rotation axis extracted from the skew-symmetric part of a matrix,
before normalization. -/
def skewAxis (R : Mat3) : Vec3 :=
  ⟨R.m21 - R.m12, R.m02 - R.m20, R.m10 - R.m01⟩

/-- Error produced by the conversion pipeline. -/
inductive ConvertError where
  | degenerate (npoints : ℕ)
  | arccosDomain
deriving DecidableEq, Repr

/-- Modelled from the spec: faultmeshops.axis_angle_from_rotation_matrix is
absent from src/.  The arccosine argument (trace R - 1) / 2 is clamped to the
interval from -1 to 1 before the arccosine is applied; the guard models the
arccosine domain check, whose error branch the clamping makes unreachable.
The angle is represented by its clamped cosine, since the arccosine is a
bijection from that interval onto the angle range from 0 to pi and is
irrational in general; the axis is the skew-symmetric part of R, kept
unnormalized (its normalization and the near-0-or-pi fallback extraction are
not needed by any claim about the angle computation). -/
def axis_angle_from_rotation_matrix (R : Mat3) : Except ConvertError (Vec3 × ℚ) :=
  let c := clampQ ((Mat3.trace R - 1) / 2)
  if -1 ≤ c ∧ c ≤ 1 then
    .ok (skewAxis R, c)
  else
    .error .arccosDomain

/-- Modelled from the spec: faultmeshops.fault_global_to_local is absent from
src/.  Each local point is R applied to the point minus the origin, preserving
index order; the planarity flag is true iff every local out-of-plane
coordinate (the z coordinate, along the axis the plane normal was rotated
onto) has magnitude below eps.  The caller in src/ also receives an
edges_local value that the specification does not describe; it is not
modelled. -/
def fault_global_to_local (points : List Vec3) (R : Mat3) (origin : Vec3)
    (eps : ℚ) : List Vec3 × Bool :=
  let local_points := points.map fun p => Mat3.mulVec R (p - origin)
  (local_points, local_points.all fun p => decide (|p.z| < eps))

/-- Modelled from the spec: faultmeshops.fault_local_to_global is absent from
src/.  Each global point is the transpose of R applied to the point, plus the
origin, the algebraic inverse of the forward transform. -/
def fault_local_to_global (points : List Vec3) (R : Mat3) (origin : Vec3) :
    List Vec3 :=
  points.map fun p => Mat3.mulVec (Mat3.transpose R) p + origin

/-- Value stored in the pickled metadata dictionary. -/
inductive PValue where
  | vec (v : Vec3)
  | rat (q : ℚ)
  | bool (b : Bool)
deriving DecidableEq, Repr

/-- Persisted per-surface record: plane normal, plane origin, rotation axis,
rotation angle and the planarity flag, exactly the five fields written by
fault_global_to_local.convert_file. -/
@[ext] structure SurfaceInfo where
  plane_normal : Vec3
  plane_origin : Vec3
  rotation_axis : Vec3
  rotation_angle : ℚ
  fault_is_plane : Bool
deriving DecidableEq, Repr

/-- Pickled dictionary literal written at fault_global_to_local.py lines
51 to 55: five string keys in the order of the source. -/
def surface_info_dict (si : SurfaceInfo) : List (String × PValue) :=
  [("plane_normal", .vec si.plane_normal),
   ("plane_origin", .vec si.plane_origin),
   ("rotation_axis", .vec si.rotation_axis),
   ("rotation_angle", .rat si.rotation_angle),
   ("fault_is_plane", .bool si.fault_is_plane)]

/-- Data-flow core of convert_file in fault_global_to_local.py: fit the
plane with eps 1.0e-5, build the rotation with cutoff_vecmag 0.98, derive
the axis-angle pair, transform the points to local coordinates, and return
the local points, the cells read from the input mesh (an opaque structure of
arbitrary type, passed through to the output mesh), and the surface-info
dictionary written to the pickle file.  File reading and writing are outside
the model. -/
def gl_convert_file {γ : Type} (svd_normal : List Vec3 → Vec3)
    (points : List Vec3) (cells : γ) :
    Except ConvertError (List Vec3 × γ × List (String × PValue)) :=
  match fit_plane_to_points svd_normal points (1 / 100000) with
  | .error e => .error (.degenerate e.npoints)
  | .ok (plane_normal, plane_origin) =>
    let rotation_matrix := get_fault_rotation_matrix plane_normal (49 / 50)
    match axis_angle_from_rotation_matrix rotation_matrix with
    | .error e => .error e
    | .ok (rotation_axis, rotation_angle) =>
      let res := fault_global_to_local points rotation_matrix plane_origin (1 / 100000)
      .ok (res.1, cells,
        surface_info_dict
          ⟨plane_normal, plane_origin, rotation_axis, rotation_angle, res.2⟩)

/-- Data-flow core of convert_file in fault_local_to_global.py: look up
plane_normal and plane_origin in the unpickled metadata dictionary, rebuild
the rotation with cutoff_vecmag 0.98, transform the points back to global
coordinates, and return them with the cells read from the input mesh passed
through.  A missing or ill-typed key yields none (the source would raise a
KeyError).  The rotation_axis, rotation_angle and fault_is_plane entries are
never read. -/
def lg_convert_file {γ : Type} (points : List Vec3) (cells : γ)
    (md : List (String × PValue)) : Option (List Vec3 × γ) :=
  match md.lookup "plane_normal", md.lookup "plane_origin" with
  | some (.vec plane_normal), some (.vec plane_origin) =>
    let rotation_matrix := get_fault_rotation_matrix plane_normal (49 / 50)
    some (fault_local_to_global points rotation_matrix plane_origin, cells)
  | _, _ => none

/-- Insert a string into a sorted list, keeping ascending order. -/
def insertSorted (s : String) : List String → List String
  | [] => [s]
  | t :: ts => if s ≤ t then s :: t :: ts else t :: insertSorted s ts

/-- Ascending insertion sort on strings, modelling the Python sorted builtin
applied to glob results. -/
def sortStrings (l : List String) : List String := l.foldr insertSorted []

/-- Directory-mode error message shared by fault_local_to_global.py and
fault_local_to_cubit.py. -/
def countMismatchMsg : String :=
  "Number of input STL files does not match number of input metadata files."

/-- File discovery and pairing of convert_dir in fault_local_to_global.py
lines 61 to 68: glob and sort the .stl names, glob and sort the .pkl names,
raise ValueError when the counts differ, and otherwise pair the lists by
position.  Per-pair conversion is lg_convert_file and is not repeated here. -/
def lg_convert_dir (files : List String) : Except String (List (String × String)) :=
  let in_stl := sortStrings (files.filter fun f => f.endsWith ".stl")
  let in_md := sortStrings (files.filter fun f => f.endsWith ".pkl")
  if in_stl.length ≠ in_md.length then
    .error countMismatchMsg
  else
    .ok (in_stl.zip in_md)

/-- File discovery and pairing of convert_dir in fault_local_to_cubit.py
lines 67 to 76, identical to the local-to-global pairing; master-journal
emission and per-pair journal generation are not repeated here. -/
def cubit_convert_dir (files : List String) : Except String (List (String × String)) :=
  let in_stl := sortStrings (files.filter fun f => f.endsWith ".stl")
  let in_md := sortStrings (files.filter fun f => f.endsWith ".pkl")
  if in_stl.length ≠ in_md.length then
    .error countMismatchMsg
  else
    .ok (in_stl.zip in_md)

/-- Abstract syntax of the Cubit journal lines written by convert_file in
fault_local_to_cubit.py, one constructor per written line, with the numeric
payloads kept exact rather than %g-formatted. -/
inductive CubitCmd where
  | reset
  | importStl (f : String)
  | schemeTriadvance
  | sizeAll (r : String)
  | meshAll
  | smoothScheme (beta : String)
  | smoothAll
  | rotate (axis : Vec3) (angleDeg : ℚ)
  | move (v : Vec3)
  | exportStl (f : String)
deriving DecidableEq, Repr

/-- Journal generation of convert_file in fault_local_to_cubit.py lines 30
to 60.  The np.degrees conversion multiplies by the fixed factor 180 / pi,
which is irrational; the factor is abstracted as the parameter radToDeg.
When output_global is set, the persisted rotation_angle, rotation_axis and
plane_origin are read from the metadata dictionary (none on a missing or
ill-typed key, where the source would raise), the angle is negated after
conversion to degrees, and a rotate line followed by a move line is emitted
before the export line. -/
def cubit_convert_file (radToDeg : ℚ) (in_stl out_stl : String)
    (resolution : String) (smoothing : Option String) (output_global : Bool)
    (md : List (String × PValue)) : Option (List CubitCmd) :=
  let base := [CubitCmd.reset, CubitCmd.importStl in_stl,
    CubitCmd.schemeTriadvance, CubitCmd.sizeAll resolution, CubitCmd.meshAll]
  let smoothCmds := match smoothing with
    | some beta => [CubitCmd.smoothScheme beta, CubitCmd.smoothAll]
    | none => []
  if output_global then
    match md.lookup "rotation_angle", md.lookup "rotation_axis",
        md.lookup "plane_origin" with
    | some (.rat ang_radians), some (.vec axis), some (.vec plane_origin) =>
      some (base ++ smoothCmds ++
        [CubitCmd.rotate axis (-(radToDeg * ang_radians)),
         CubitCmd.move plane_origin,
         CubitCmd.exportStl out_stl])
    | _, _, _ => none
  else
    some (base ++ smoothCmds ++ [CubitCmd.exportStl out_stl])

/-- Concrete demonstration surface: the unit square in the XY plane, the
concrete scenario of the specification. -/
def demoPoints : List Vec3 := [⟨0, 0, 0⟩, ⟨1, 0, 0⟩, ⟨0, 1, 0⟩, ⟨1, 1, 0⟩]

/-- Abstract SVD oracle for the demonstration surface: the least-variance
direction of the unit square is the z axis. -/
def demoSvd : List Vec3 → Vec3 := fun _ => ⟨0, 0, 1⟩

/-- Connectivity accompanying the demonstration surface: two triangles. -/
def demoCells : List (List ℕ) := [[0, 1, 2], [1, 3, 2]]

/-- Local coordinates of the demonstration surface: the square centred at
its centroid. -/
def demoLocalPoints : List Vec3 :=
  [⟨-1/2, -1/2, 0⟩, ⟨1/2, -1/2, 0⟩, ⟨-1/2, 1/2, 0⟩, ⟨1/2, 1/2, 0⟩]

/-- Surface record of the demonstration surface: normal z, centroid origin,
zero skew axis, clamped cosine one, planar. -/
def demoInfo : SurfaceInfo := ⟨⟨0, 0, 1⟩, ⟨1/2, 1/2, 0⟩, ⟨0, 0, 0⟩, 1, true⟩

section Mat3Lemmas

theorem Mat3.mul_assoc (a b c : Mat3) :
    Mat3.mul (Mat3.mul a b) c = Mat3.mul a (Mat3.mul b c) := by
  ext <;> simp [Mat3.mul] <;> ring

theorem Mat3.mul_id (a : Mat3) : Mat3.mul a Mat3.id = a := by
  ext <;> simp [Mat3.mul, Mat3.id]

theorem Mat3.id_mul (a : Mat3) : Mat3.mul Mat3.id a = a := by
  ext <;> simp [Mat3.mul, Mat3.id]

theorem Mat3.mul_adjugate (a : Mat3) :
    Mat3.mul a (Mat3.adjugate a) = Mat3.det a • Mat3.id := by
  ext <;> simp [Mat3.mul, Mat3.adjugate, Mat3.det, Mat3.id, HSMul.hSMul, SMul.smul] <;> ring

theorem Mat3.adjugate_mul (a : Mat3) :
    Mat3.mul (Mat3.adjugate a) a = Mat3.det a • Mat3.id := by
  ext <;> simp [Mat3.mul, Mat3.adjugate, Mat3.det, Mat3.id, HSMul.hSMul, SMul.smul] <;> ring

theorem Mat3.det_mul (a b : Mat3) :
    Mat3.det (Mat3.mul a b) = Mat3.det a * Mat3.det b := by
  simp [Mat3.det, Mat3.mul]; ring

theorem Mat3.det_transpose (a : Mat3) :
    Mat3.det (Mat3.transpose a) = Mat3.det a := by
  simp [Mat3.det, Mat3.transpose]; ring

theorem Mat3.det_id : Mat3.det Mat3.id = 1 := by
  norm_num [Mat3.det, Mat3.id]

theorem Mat3.smul_mul (c : ℚ) (a b : Mat3) :
    Mat3.mul (c • a) b = c • Mat3.mul a b := by
  ext <;> simp [Mat3.mul, HSMul.hSMul, SMul.smul] <;> ring

theorem Mat3.mul_smulM (c : ℚ) (a b : Mat3) :
    Mat3.mul a (c • b) = c • Mat3.mul a b := by
  ext <;> simp [Mat3.mul, HSMul.hSMul, SMul.smul] <;> ring

theorem Mat3.smul_cancel {c : ℚ} {a b : Mat3} (hc : c ≠ 0)
    (h : c • a = c • b) : a = b := by
  have hk : ∀ u v : ℚ, c * u = c * v → u = v := fun u v huv =>
    mul_left_cancel₀ hc huv
  obtain ⟨a0, a1, a2, a3, a4, a5, a6, a7, a8⟩ := a
  obtain ⟨b0, b1, b2, b3, b4, b5, b6, b7, b8⟩ := b
  simp only [HSMul.hSMul, SMul.smul, Mat3.mk.injEq] at h ⊢
  exact ⟨hk _ _ h.1, hk _ _ h.2.1, hk _ _ h.2.2.1, hk _ _ h.2.2.2.1,
    hk _ _ h.2.2.2.2.1, hk _ _ h.2.2.2.2.2.1, hk _ _ h.2.2.2.2.2.2.1,
    hk _ _ h.2.2.2.2.2.2.2.1, hk _ _ h.2.2.2.2.2.2.2.2⟩

theorem Mat3.det_ne_zero_of_mul_transpose {R : Mat3}
    (h : Mat3.mul R (Mat3.transpose R) = Mat3.id) : Mat3.det R ≠ 0 := by
  have hd := congrArg Mat3.det h
  rw [Mat3.det_mul, Mat3.det_transpose, Mat3.det_id] at hd
  intro h0
  rw [h0] at hd
  norm_num at hd

theorem Mat3.adjugate_eq_of_mul_transpose {R : Mat3}
    (h : Mat3.mul R (Mat3.transpose R) = Mat3.id) :
    Mat3.adjugate R = Mat3.det R • Mat3.transpose R := by
  calc Mat3.adjugate R
      = Mat3.mul (Mat3.adjugate R) (Mat3.mul R (Mat3.transpose R)) := by
        rw [h, Mat3.mul_id]
    _ = Mat3.mul (Mat3.mul (Mat3.adjugate R) R) (Mat3.transpose R) := by
        rw [Mat3.mul_assoc]
    _ = Mat3.mul (Mat3.det R • Mat3.id) (Mat3.transpose R) := by
        rw [Mat3.adjugate_mul]
    _ = Mat3.det R • Mat3.transpose R := by
        rw [Mat3.smul_mul, Mat3.id_mul]

/-- A right inverse given by the transpose is also a left inverse: row
orthonormality implies column orthonormality. -/
theorem Mat3.transpose_mul_of_mul_transpose {R : Mat3}
    (h : Mat3.mul R (Mat3.transpose R) = Mat3.id) :
    Mat3.mul (Mat3.transpose R) R = Mat3.id := by
  have hne := Mat3.det_ne_zero_of_mul_transpose h
  apply Mat3.smul_cancel hne
  calc Mat3.det R • Mat3.mul (Mat3.transpose R) R
      = Mat3.mul (Mat3.det R • Mat3.transpose R) R := by rw [Mat3.smul_mul]
    _ = Mat3.mul (Mat3.adjugate R) R := by rw [Mat3.adjugate_eq_of_mul_transpose h]
    _ = Mat3.det R • Mat3.id := Mat3.adjugate_mul R

theorem Mat3.mulVec_mulVec (a b : Mat3) (v : Vec3) :
    Mat3.mulVec (Mat3.mul a b) v = Mat3.mulVec a (Mat3.mulVec b v) := by
  ext <;> simp [Mat3.mulVec, Mat3.mul] <;> ring

theorem Mat3.id_mulVec (v : Vec3) : Mat3.mulVec Mat3.id v = v := by
  ext <;> simp [Mat3.mulVec, Mat3.id]

theorem Vec3.sub_add_cancel (p o : Vec3) : p - o + o = p := by
  ext <;> simp [Vec3.add_def, Vec3.sub_def]

end Mat3Lemmas

section RodriguesLemmas

theorem rodriguesBranch_mul_transpose (x y z : ℚ) (h : x^2 + y^2 + z^2 = 1)
    (hz : 1 + z ≠ 0) :
    Mat3.mul (rodriguesBranch x y z) (Mat3.transpose (rodriguesBranch x y z))
      = Mat3.id := by
  ext <;> simp only [rodriguesBranch, Mat3.add_entries, Mat3.smul_entries, Mat3.mul,
    Mat3.transpose, Mat3.id, Mat3.skew] <;> field_simp
  case m00 => linear_combination (x^2) * h
  case m01 => linear_combination (x*y*(1+z)^2) * h
  case m02 => ring
  case m10 => linear_combination (x*y*(1+z)^2) * h
  case m11 => linear_combination (y^2) * h
  case m12 => ring
  case m20 => ring
  case m21 => ring
  case m22 => linear_combination (x^2 + y^2) * h

theorem rodriguesBranch_det (x y z : ℚ) (h : x^2 + y^2 + z^2 = 1)
    (hz : 1 + z ≠ 0) : Mat3.det (rodriguesBranch x y z) = 1 := by
  simp only [rodriguesBranch, Mat3.add_entries, Mat3.smul_entries, Mat3.det, Mat3.mul,
    Mat3.id, Mat3.skew]
  field_simp
  linear_combination ((x^2 + y^2) * (1+z)^3) * h

theorem rodriguesBranch_aligns (x y z : ℚ) (h : x^2 + y^2 + z^2 = 1)
    (hz : 1 + z ≠ 0) :
    Mat3.mulVec (rodriguesBranch x y z) ⟨x, y, z⟩ = ⟨0, 0, 1⟩ := by
  ext <;> simp only [rodriguesBranch, Mat3.add_entries, Mat3.smul_entries, Mat3.mulVec,
    Mat3.mul, Mat3.id, Mat3.skew] <;> field_simp
  case x => linear_combination (-x) * h
  case y => linear_combination (-(y*(1+z))) * h
  case z => linear_combination h

end RodriguesLemmas

/-- C4: for every unit normal and every positive cutoff, the built rotation
R satisfies R times its transpose equal to the identity, determinant one,
and R applied to the normal lands within the cutoff tolerance of the
reference axis: the squared distance is at most two times the squared
cutoff (zero in the non-degenerate branch, where the alignment is exact;
bounded through the cutoff in the identity and 180 degree fallbacks). -/
theorem build_rotation_props (n : Vec3) (c : ℚ)
    (hunit : Vec3.normSq n = 1) (hc : 0 < c) :
    Mat3.mul (get_fault_rotation_matrix n c)
      (Mat3.transpose (get_fault_rotation_matrix n c)) = Mat3.id ∧
    Mat3.det (get_fault_rotation_matrix n c) = 1 ∧
    Vec3.normSq (Mat3.mulVec (get_fault_rotation_matrix n c) n - reference_axis)
      ≤ 2 * c ^ 2 := by
  obtain ⟨x, y, z⟩ := n
  have hxyz : x ^ 2 + y ^ 2 + z ^ 2 = 1 := hunit
  have hcross : Vec3.cross ⟨x, y, z⟩ reference_axis = ⟨y, -x, 0⟩ := by
    simp [Vec3.cross, reference_axis]
  have hdot : Vec3.dot ⟨x, y, z⟩ reference_axis = z := by
    simp [Vec3.dot, reference_axis]
  have hns : Vec3.normSq ⟨y, -x, 0⟩ = y ^ 2 + x ^ 2 := by
    show y ^ 2 + (-x) ^ 2 + 0 ^ 2 = y ^ 2 + x ^ 2
    ring
  by_cases h1 : Vec3.normSq (Vec3.cross ⟨x, y, z⟩ reference_axis) < c ^ 2
  · have h1q : y ^ 2 + x ^ 2 < c ^ 2 := by rwa [hcross, hns] at h1
    by_cases h2 : 0 ≤ Vec3.dot ⟨x, y, z⟩ reference_axis
    · have h2q : 0 ≤ z := by rwa [hdot] at h2
      have hR : get_fault_rotation_matrix ⟨x, y, z⟩ c = Mat3.id := by
        simp only [get_fault_rotation_matrix]
        rw [if_pos h1, if_pos h2]
      rw [hR]
      refine ⟨by ext <;> simp [Mat3.mul, Mat3.transpose, Mat3.id],
        by norm_num [Mat3.det, Mat3.id], ?_⟩
      have hval : Vec3.normSq (Mat3.mulVec Mat3.id ⟨x, y, z⟩ - reference_axis)
          = x ^ 2 + y ^ 2 + (z - 1) ^ 2 := by
        simp only [Mat3.mulVec, Mat3.id, reference_axis, Vec3.sub_def, Vec3.normSq]
        ring
      rw [hval]
      nlinarith [h1q, hxyz, h2q, sq_nonneg (1 - z), sq_nonneg (1 + z)]
    · have h2q : z < 0 := by
        rw [hdot] at h2
        exact lt_of_not_le h2
      have hR : get_fault_rotation_matrix ⟨x, y, z⟩ c
          = ⟨1, 0, 0, 0, -1, 0, 0, 0, -1⟩ := by
        simp only [get_fault_rotation_matrix]
        rw [if_pos h1, if_neg h2]
      rw [hR]
      refine ⟨by ext <;> simp [Mat3.mul, Mat3.transpose, Mat3.id],
        by norm_num [Mat3.det], ?_⟩
      have hval : Vec3.normSq
          (Mat3.mulVec ⟨1, 0, 0, 0, -1, 0, 0, 0, -1⟩ ⟨x, y, z⟩ - reference_axis)
          = x ^ 2 + y ^ 2 + (z + 1) ^ 2 := by
        simp only [Mat3.mulVec, reference_axis, Vec3.sub_def, Vec3.normSq]
        ring
      rw [hval]
      nlinarith [h1q, hxyz, h2q, sq_nonneg (1 - z), sq_nonneg (1 + z)]
  · have h1q : c ^ 2 ≤ y ^ 2 + x ^ 2 := by
      rw [hcross, hns] at h1
      exact le_of_not_lt h1
    have hzpos : 0 < 1 + z := by
      by_contra hle
      push_neg at hle
      nlinarith [h1q, hxyz, mul_pos hc hc, sq_nonneg (1 + z)]
    have hzne : 1 + z ≠ 0 := ne_of_gt hzpos
    have h1n : ¬ Vec3.normSq (⟨y, -x, 0⟩ : Vec3) < c ^ 2 := by
      rwa [hcross] at h1
    have hR : get_fault_rotation_matrix ⟨x, y, z⟩ c = rodriguesBranch x y z := by
      simp only [get_fault_rotation_matrix, rodriguesBranch]
      rw [hcross, hdot, if_neg h1n]
    rw [hR]
    refine ⟨rodriguesBranch_mul_transpose x y z hxyz hzne,
      rodriguesBranch_det x y z hxyz hzne, ?_⟩
    rw [rodriguesBranch_aligns x y z hxyz hzne]
    have hzero : Vec3.normSq (Vec3.mk 0 0 1 - reference_axis) = 0 := by
      simp only [reference_axis, Vec3.sub_def, Vec3.normSq]
      norm_num
    rw [hzero]
    positivity

/-- Witness for C4 at the unit normal with components 3/5, 4/5, 0 and the
cutoff 49/50 used by the conversion scripts. -/
theorem build_rotation_props_witness :
    Mat3.mul (get_fault_rotation_matrix ⟨3/5, 4/5, 0⟩ (49/50))
      (Mat3.transpose (get_fault_rotation_matrix ⟨3/5, 4/5, 0⟩ (49/50))) = Mat3.id ∧
    Mat3.det (get_fault_rotation_matrix ⟨3/5, 4/5, 0⟩ (49/50)) = 1 ∧
    Vec3.normSq
        (Mat3.mulVec (get_fault_rotation_matrix ⟨3/5, 4/5, 0⟩ (49/50)) ⟨3/5, 4/5, 0⟩
          - reference_axis)
      ≤ 2 * (49/50) ^ 2 :=
  build_rotation_props ⟨3/5, 4/5, 0⟩ (49/50)
    (by norm_num [Vec3.normSq]) (by norm_num)

section CollinearLemmas

theorem Vec3.normSq_eq_zero {v : Vec3} (h : Vec3.normSq v = 0) : v = Vec3.zero := by
  obtain ⟨x, y, z⟩ := v
  have hs : x ^ 2 + y ^ 2 + z ^ 2 = 0 := h
  have hx : x ^ 2 = 0 := by nlinarith [sq_nonneg x, sq_nonneg y, sq_nonneg z]
  have hy : y ^ 2 = 0 := by nlinarith [sq_nonneg x, sq_nonneg y, sq_nonneg z]
  have hz : z ^ 2 = 0 := by nlinarith [sq_nonneg x, sq_nonneg y, sq_nonneg z]
  have : x = 0 := pow_eq_zero_iff two_ne_zero |>.mp hx
  have : y = 0 := pow_eq_zero_iff two_ne_zero |>.mp hy
  have : z = 0 := pow_eq_zero_iff two_ne_zero |>.mp hz
  simp_all [Vec3.zero]

theorem Vec3.sub_eq_zero_iff {a b : Vec3} : a - b = Vec3.zero ↔ a = b := by
  obtain ⟨ax, ay, az⟩ := a
  obtain ⟨bx, by_, bz⟩ := b
  simp [Vec3.sub_def, Vec3.zero, Vec3.mk.injEq, sub_eq_zero]

theorem Vec3.normSq_ne_zero_of_ne {v : Vec3} (h : v ≠ Vec3.zero) :
    Vec3.normSq v ≠ 0 := fun h0 => h (Vec3.normSq_eq_zero h0)

/-- A vector with zero cross product against a nonzero vector is the
scalar multiple of it given by the projection coefficient. -/
theorem Vec3.parallel_of_cross_eq_zero {u v : Vec3} (hu : u ≠ Vec3.zero)
    (h : Vec3.cross u v = Vec3.zero) :
    v = (Vec3.dot u v / Vec3.normSq u) • u := by
  have hns : Vec3.normSq u ≠ 0 := Vec3.normSq_ne_zero_of_ne hu
  obtain ⟨ux, uy, uz⟩ := u
  obtain ⟨vx, vy, vz⟩ := v
  have c1 : uy * vz - uz * vy = 0 := congrArg Vec3.x h
  have c2 : uz * vx - ux * vz = 0 := congrArg Vec3.y h
  have c3 : ux * vy - uy * vx = 0 := congrArg Vec3.z h
  have hns2 : ux ^ 2 + uy ^ 2 + uz ^ 2 ≠ 0 := hns
  ext
  · show vx = Vec3.dot ⟨ux, uy, uz⟩ ⟨vx, vy, vz⟩ / Vec3.normSq ⟨ux, uy, uz⟩ * ux
    simp only [Vec3.dot, Vec3.normSq]
    field_simp
    linear_combination (-uy) * c3 + uz * c2
  · show vy = Vec3.dot ⟨ux, uy, uz⟩ ⟨vx, vy, vz⟩ / Vec3.normSq ⟨ux, uy, uz⟩ * uy
    simp only [Vec3.dot, Vec3.normSq]
    field_simp
    linear_combination ux * c3 + (-uz) * c1
  · show vz = Vec3.dot ⟨ux, uy, uz⟩ ⟨vx, vy, vz⟩ / Vec3.normSq ⟨ux, uy, uz⟩ * uz
    simp only [Vec3.dot, Vec3.normSq]
    field_simp
    linear_combination (-ux) * c2 + uy * c1

theorem Vec3.eq_add_of_sub_eq {r p w : Vec3} (h : r - p = w) : r = p + w := by
  obtain ⟨rx, ry, rz⟩ := r
  obtain ⟨px, py, pz⟩ := p
  obtain ⟨wx, wy, wz⟩ := w
  simp only [Vec3.sub_def, Vec3.mk.injEq] at h
  simp only [Vec3.add_def, Vec3.mk.injEq]
  exact ⟨by linarith [h.1], by linarith [h.2.1], by linarith [h.2.2]⟩

/-- The executable pairwise cross-product test agrees with abstract
collinearity. -/
theorem isCollinear_iff_collinear (ps : List Vec3) :
    isCollinear ps ↔ Collinear ps := by
  cases ps with
  | nil =>
    constructor
    · intro _
      exact ⟨Vec3.zero, Vec3.zero, fun q hq => absurd hq (List.not_mem_nil q)⟩
    · intro _
      trivial
  | cons p rest =>
    constructor
    · intro h
      by_cases hall : ∀ q ∈ p :: rest, q = p
      · refine ⟨p, Vec3.zero, fun q hq => ⟨0, ?_⟩⟩
        rw [hall q hq]
        ext <;> simp [Vec3.add_def, Vec3.smul_def, Vec3.zero]
      · push_neg at hall
        obtain ⟨q0, hq0mem, hq0ne⟩ := hall
        have hu : q0 - p ≠ Vec3.zero := fun h0 =>
          hq0ne (Vec3.sub_eq_zero_iff.mp h0)
        refine ⟨p, q0 - p, fun r hr => ⟨Vec3.dot (q0 - p) (r - p) / Vec3.normSq (q0 - p), ?_⟩⟩
        have hcr : Vec3.cross (q0 - p) (r - p) = Vec3.zero := h q0 hq0mem r hr
        exact Vec3.eq_add_of_sub_eq (Vec3.parallel_of_cross_eq_zero hu hcr)
    · intro hcol
      obtain ⟨b, d, hline⟩ := hcol
      intro q hq r hr
      obtain ⟨tq, hqeq⟩ := hline q hq
      obtain ⟨tr, hreq⟩ := hline r hr
      obtain ⟨tp, hpeq⟩ := hline p (List.mem_cons_self p rest)
      subst hqeq hreq hpeq
      obtain ⟨bx, by_, bz⟩ := b
      obtain ⟨dx, dy, dz⟩ := d
      ext <;>
        simp only [Vec3.cross, Vec3.sub_def, Vec3.add_def, Vec3.smul_def,
          Vec3.zero] <;>
        ring

end CollinearLemmas

/-- C6: fit_plane_to_points reports DegenerateInputError exactly when the
point set has fewer than 3 points or all points are collinear (coincident
point sets included); in every such case no plane is returned, the success
and error constructors of Except being mutually exclusive. -/
theorem fit_plane_degenerate_iff (svd_normal : List Vec3 → Vec3)
    (points : List Vec3) (eps : ℚ) :
    (∃ e, fit_plane_to_points svd_normal points eps = .error e) ↔
      points.length < 3 ∨ Collinear points := by
  by_cases hcond : points.length < 3 ∨ isCollinear points
  · constructor
    · intro _
      rcases hcond with h | h
      · exact Or.inl h
      · exact Or.inr ((isCollinear_iff_collinear points).mp h)
    · intro _
      exact ⟨⟨points.length⟩, by simp [fit_plane_to_points, hcond]⟩
  · constructor
    · intro ⟨e, he⟩
      rw [fit_plane_to_points, if_neg hcond] at he
      exact absurd he (by simp)
    · intro habs
      exfalso
      apply hcond
      rcases habs with h | h
      · exact Or.inl h
      · exact Or.inr ((isCollinear_iff_collinear points).mpr h)

section PipelineLemmas

theorem clampQ_mem_Icc (q : ℚ) : -1 ≤ clampQ q ∧ clampQ q ≤ 1 :=
  ⟨le_max_left _ _, max_le (by norm_num) (min_le_left _ _)⟩

theorem axis_angle_eq_ok (R : Mat3) :
    axis_angle_from_rotation_matrix R
      = .ok (skewAxis R, clampQ ((Mat3.trace R - 1) / 2)) := by
  have hb := clampQ_mem_Icc ((Mat3.trace R - 1) / 2)
  simp only [axis_angle_from_rotation_matrix]
  rw [if_pos hb]

/-- Success inversion for the global-to-local pipeline: the fitted plane,
the rotation built from its normal with cutoff 49/50, the transformed
points, the passed-through cells and the written metadata record. -/
theorem gl_convert_file_ok {γ : Type} (svd_normal : List Vec3 → Vec3)
    (points : List Vec3) (cells : γ) (pl : List Vec3) (cs : γ)
    (md : List (String × PValue))
    (h : gl_convert_file svd_normal points cells = .ok (pl, cs, md)) :
    ∃ pn po : Vec3,
      fit_plane_to_points svd_normal points (1 / 100000) = .ok (pn, po) ∧
      pl = (fault_global_to_local points (get_fault_rotation_matrix pn (49 / 50))
        po (1 / 100000)).1 ∧
      cs = cells ∧
      md = surface_info_dict
        ⟨pn, po, skewAxis (get_fault_rotation_matrix pn (49 / 50)),
         clampQ ((Mat3.trace (get_fault_rotation_matrix pn (49 / 50)) - 1) / 2),
         (fault_global_to_local points (get_fault_rotation_matrix pn (49 / 50))
           po (1 / 100000)).2⟩ := by
  unfold gl_convert_file at h
  cases hfit : fit_plane_to_points svd_normal points (1 / 100000) with
  | error e =>
    rw [hfit] at h
    exact absurd h (by simp)
  | ok pr =>
    obtain ⟨pn, po⟩ := pr
    rw [hfit] at h
    simp only [axis_angle_eq_ok, Except.ok.injEq, Prod.mk.injEq] at h
    exact ⟨pn, po, rfl, h.1.symm, h.2.1.symm, h.2.2.symm⟩

theorem lg_convert_file_ok {γ : Type} (points : List Vec3) (cells : γ)
    (md : List (String × PValue)) (pg : List Vec3) (cs : γ)
    (h : lg_convert_file points cells md = some (pg, cs)) :
    cs = cells ∧ ∃ pn po : Vec3,
      md.lookup "plane_normal" = some (.vec pn) ∧
      md.lookup "plane_origin" = some (.vec po) ∧
      pg = fault_local_to_global points (get_fault_rotation_matrix pn (49 / 50)) po := by
  unfold lg_convert_file at h
  split at h
  case _ pn po heq1 heq2 =>
    simp only [Option.some.injEq, Prod.mk.injEq] at h
    exact ⟨h.2.symm, pn, po, heq1, heq2, h.1.symm⟩
  case _ =>
    exact absurd h (by simp)

end PipelineLemmas

section DemoLemmas

theorem demo_fit : fit_plane_to_points demoSvd demoPoints (1 / 100000)
    = .ok (⟨0, 0, 1⟩, ⟨1/2, 1/2, 0⟩) := by
  have hnotcol : ¬ isCollinear demoPoints := by
    intro h
    have h2 : ∀ q ∈ demoPoints, ∀ r ∈ demoPoints,
        Vec3.cross (q - ⟨0, 0, 0⟩) (r - ⟨0, 0, 0⟩) = Vec3.zero := h
    have h3 := h2 ⟨1, 0, 0⟩ (by simp [demoPoints]) ⟨0, 1, 0⟩ (by simp [demoPoints])
    simp only [Vec3.cross, Vec3.sub_def, Vec3.zero, Vec3.mk.injEq] at h3
    norm_num at h3
  have hcond : ¬ (demoPoints.length < 3 ∨ isCollinear demoPoints) := by
    rintro (h | h)
    · norm_num [demoPoints] at h
    · exact hnotcol h
  have hc : centroid demoPoints = ⟨1/2, 1/2, 0⟩ := by
    simp only [centroid, demoPoints, List.foldr, Vec3.add_def, Vec3.zero,
      List.length, Vec3.smul_def, Vec3.mk.injEq]
    norm_num
  unfold fit_plane_to_points
  rw [if_neg hcond, hc]
  rfl

theorem demo_rot : get_fault_rotation_matrix ⟨0, 0, 1⟩ (49/50) = Mat3.id := by
  norm_num [get_fault_rotation_matrix, reference_axis, Vec3.cross, Vec3.dot,
    Vec3.normSq]

theorem demo_loc : fault_global_to_local demoPoints Mat3.id ⟨1/2, 1/2, 0⟩ (1 / 100000)
    = (demoLocalPoints, true) := by
  have h1 : demoPoints.map
      (fun p => Mat3.mulVec Mat3.id (p - ⟨1/2, 1/2, 0⟩)) = demoLocalPoints := by
    simp only [demoPoints, demoLocalPoints, List.map, Mat3.mulVec, Mat3.id,
      Vec3.sub_def, List.cons.injEq, Vec3.mk.injEq]
    norm_num
  show (demoPoints.map (fun p => Mat3.mulVec Mat3.id (p - ⟨1/2, 1/2, 0⟩)),
    (demoPoints.map (fun p => Mat3.mulVec Mat3.id (p - ⟨1/2, 1/2, 0⟩))).all
      fun p => decide (|p.z| < 1 / 100000)) = (demoLocalPoints, true)
  rw [h1]
  have h2 : (demoLocalPoints.all fun p => decide (|p.z| < 1 / 100000)) = true := by
    simp only [demoLocalPoints, List.all_cons, List.all_nil, Bool.and_eq_true,
      decide_eq_true_eq]
    norm_num
  rw [h2]

theorem demo_skewAxis : skewAxis Mat3.id = ⟨0, 0, 0⟩ := by
  simp only [skewAxis, Mat3.id, Vec3.mk.injEq]
  norm_num

theorem demo_clamp : clampQ ((Mat3.trace Mat3.id - 1) / 2) = 1 := by
  rw [show ((Mat3.trace Mat3.id - 1) / 2 : ℚ) = 1 by norm_num [Mat3.trace, Mat3.id]]
  unfold clampQ
  rw [min_self]
  exact max_eq_right (by norm_num)

theorem demo_gl : gl_convert_file demoSvd demoPoints demoCells
    = .ok (demoLocalPoints, demoCells, surface_info_dict demoInfo) := by
  unfold gl_convert_file
  rw [demo_fit]
  simp only [demo_rot, axis_angle_eq_ok, demo_skewAxis, demo_clamp, demo_loc]
  rfl

theorem demo_lg : lg_convert_file demoLocalPoints demoCells (surface_info_dict demoInfo)
    = some (demoPoints, demoCells) := by
  have hrest : fault_local_to_global demoLocalPoints
      (get_fault_rotation_matrix ⟨0, 0, 1⟩ (49/50)) ⟨1/2, 1/2, 0⟩ = demoPoints := by
    rw [demo_rot]
    simp only [fault_local_to_global, demoLocalPoints, demoPoints, List.map,
      Mat3.transpose, Mat3.id, Mat3.mulVec, Vec3.add_def, List.cons.injEq,
      Vec3.mk.injEq]
    norm_num
  have hl1 : List.lookup "plane_normal" (surface_info_dict demoInfo)
      = some (.vec ⟨0, 0, 1⟩) := rfl
  have hl2 : List.lookup "plane_origin" (surface_info_dict demoInfo)
      = some (.vec ⟨1/2, 1/2, 0⟩) := rfl
  unfold lg_convert_file
  rw [hl1, hl2]
  show some (fault_local_to_global demoLocalPoints
    (get_fault_rotation_matrix ⟨0, 0, 1⟩ (49/50)) ⟨1/2, 1/2, 0⟩, demoCells)
    = some (demoPoints, demoCells)
  rw [hrest]

end DemoLemmas

/-- C3: a successful global-to-local conversion writes exactly one
surface-info record holding exactly the five fields plane_normal,
plane_origin, rotation_axis, rotation_angle and fault_is_plane, in the
order of the source; each field is read back unmodified by lookup, and the
local-to-global reader consumes the record successfully, rebuilding the
rotation from the stored plane normal. -/
theorem surface_info_five_fields {γ : Type} (svd_normal : List Vec3 → Vec3)
    (points : List Vec3) (cells : γ) (pl : List Vec3) (cs : γ)
    (md : List (String × PValue))
    (h : gl_convert_file svd_normal points cells = .ok (pl, cs, md)) :
    ∃ si : SurfaceInfo, md = surface_info_dict si ∧
      md.map Prod.fst = ["plane_normal", "plane_origin", "rotation_axis",
        "rotation_angle", "fault_is_plane"] ∧
      md.lookup "plane_normal" = some (.vec si.plane_normal) ∧
      md.lookup "plane_origin" = some (.vec si.plane_origin) ∧
      md.lookup "rotation_axis" = some (.vec si.rotation_axis) ∧
      md.lookup "rotation_angle" = some (.rat si.rotation_angle) ∧
      md.lookup "fault_is_plane" = some (.bool si.fault_is_plane) ∧
      lg_convert_file pl cs md = some (fault_local_to_global pl
        (get_fault_rotation_matrix si.plane_normal (49 / 50)) si.plane_origin, cs) := by
  obtain ⟨pn, po, hfit, hpl, hcs, hmd⟩ := gl_convert_file_ok _ _ _ _ _ _ h
  subst hmd
  exact ⟨_, rfl, rfl, rfl, rfl, rfl, rfl, rfl, rfl⟩

/-- Witness for C3 on the demonstration square surface. -/
theorem surface_info_five_fields_witness :
    ∃ si : SurfaceInfo, surface_info_dict demoInfo = surface_info_dict si ∧
      (surface_info_dict demoInfo).map Prod.fst = ["plane_normal", "plane_origin",
        "rotation_axis", "rotation_angle", "fault_is_plane"] ∧
      (surface_info_dict demoInfo).lookup "plane_normal" = some (.vec si.plane_normal) ∧
      (surface_info_dict demoInfo).lookup "plane_origin" = some (.vec si.plane_origin) ∧
      (surface_info_dict demoInfo).lookup "rotation_axis" = some (.vec si.rotation_axis) ∧
      (surface_info_dict demoInfo).lookup "rotation_angle" = some (.rat si.rotation_angle) ∧
      (surface_info_dict demoInfo).lookup "fault_is_plane" = some (.bool si.fault_is_plane) ∧
      lg_convert_file demoLocalPoints demoCells (surface_info_dict demoInfo)
        = some (fault_local_to_global demoLocalPoints
          (get_fault_rotation_matrix si.plane_normal (49 / 50)) si.plane_origin,
          demoCells) :=
  surface_info_five_fields demoSvd demoPoints demoCells demoLocalPoints demoCells
    (surface_info_dict demoInfo) demo_gl

/-- C5: after a successful global-to-local conversion, the local-to-global
reader rebuilds the rotation by the very same call
get_fault_rotation_matrix on the persisted plane normal with the same
cutoff 49/50 as the forward path, and its output depends only on the
plane_normal and plane_origin entries of the record: any record md2
agreeing on those two lookups yields the same result, so the persisted
rotation axis and angle are not needed to invert the transform. -/
theorem rebuild_rotation_from_normal_only {γ : Type}
    (svd_normal : List Vec3 → Vec3) (points : List Vec3) (cells : γ)
    (pl : List Vec3) (cs : γ) (md md2 : List (String × PValue))
    (h : gl_convert_file svd_normal points cells = .ok (pl, cs, md))
    (hn : md2.lookup "plane_normal" = md.lookup "plane_normal")
    (ho : md2.lookup "plane_origin" = md.lookup "plane_origin") :
    ∃ pn po : Vec3,
      fit_plane_to_points svd_normal points (1 / 100000) = .ok (pn, po) ∧
      md.lookup "plane_normal" = some (.vec pn) ∧
      md.lookup "plane_origin" = some (.vec po) ∧
      lg_convert_file pl cs md = some (fault_local_to_global pl
        (get_fault_rotation_matrix pn (49 / 50)) po, cs) ∧
      lg_convert_file pl cs md2 = lg_convert_file pl cs md := by
  obtain ⟨pn, po, hfit, hpl, hcs, hmd⟩ := gl_convert_file_ok _ _ _ _ _ _ h
  subst hmd
  refine ⟨pn, po, hfit, rfl, rfl, rfl, ?_⟩
  unfold lg_convert_file
  rw [hn, ho]

/-- Witness for C5: a record with a different rotation axis, a different
angle and a different planarity flag but the same plane normal and origin
drives the reader to the same output. -/
theorem rebuild_rotation_from_normal_only_witness :
    ∃ pn po : Vec3,
      fit_plane_to_points demoSvd demoPoints (1 / 100000) = .ok (pn, po) ∧
      (surface_info_dict demoInfo).lookup "plane_normal" = some (.vec pn) ∧
      (surface_info_dict demoInfo).lookup "plane_origin" = some (.vec po) ∧
      lg_convert_file demoLocalPoints demoCells (surface_info_dict demoInfo)
        = some (fault_local_to_global demoLocalPoints
          (get_fault_rotation_matrix pn (49 / 50)) po, demoCells) ∧
      lg_convert_file demoLocalPoints demoCells
          (surface_info_dict ⟨⟨0, 0, 1⟩, ⟨1/2, 1/2, 0⟩, ⟨5, 6, 7⟩, 99, false⟩)
        = lg_convert_file demoLocalPoints demoCells (surface_info_dict demoInfo) :=
  rebuild_rotation_from_normal_only demoSvd demoPoints demoCells demoLocalPoints
    demoCells (surface_info_dict demoInfo)
    (surface_info_dict ⟨⟨0, 0, 1⟩, ⟨1/2, 1/2, 0⟩, ⟨5, 6, 7⟩, 99, false⟩)
    demo_gl rfl rfl

/-- C7: neither conversion direction inspects or modifies the cell
structure: both pipelines are polymorphic in the cell type, and the cells
of a successful output are exactly the cells read from the input mesh. -/
theorem cells_passthrough {γ : Type} (svd_normal : List Vec3 → Vec3)
    (points pts2 : List Vec3) (cells cells2 : γ) (pl pg : List Vec3)
    (cs1 cs2 : γ) (md1 md2 : List (String × PValue))
    (h1 : gl_convert_file svd_normal points cells = .ok (pl, cs1, md1))
    (h2 : lg_convert_file pts2 cells2 md2 = some (pg, cs2)) :
    cs1 = cells ∧ cs2 = cells2 := by
  obtain ⟨pn, po, _, _, hcs, _⟩ := gl_convert_file_ok _ _ _ _ _ _ h1
  exact ⟨hcs, (lg_convert_file_ok _ _ _ _ _ h2).1⟩

/-- Witness for C7 on the demonstration runs of both directions. -/
theorem cells_passthrough_witness : demoCells = demoCells ∧ demoCells = demoCells :=
  cells_passthrough demoSvd demoPoints demoLocalPoints demoCells demoCells
    demoLocalPoints demoPoints demoCells demoCells
    (surface_info_dict demoInfo) (surface_info_dict demoInfo) demo_gl demo_lg

/-- C8: the axis-angle conversion is total: for every matrix the arccosine
argument is clamped into the interval from -1 to 1 before the domain guard,
so the conversion always returns the axis and clamped cosine and the
out-of-domain error branch is unreachable. -/
theorem axis_angle_total (R : Mat3) :
    axis_angle_from_rotation_matrix R
      = .ok (skewAxis R, clampQ ((Mat3.trace R - 1) / 2)) ∧
    -1 ≤ clampQ ((Mat3.trace R - 1) / 2) ∧
    clampQ ((Mat3.trace R - 1) / 2) ≤ 1 :=
  ⟨axis_angle_eq_ok R, clampQ_mem_Icc _⟩

/-- C1: for every point set, every orthonormal rotation matrix R with
R times its transpose the identity and determinant one, and every origin,
composing fault_local_to_global after fault_global_to_local returns the
original points, each at its original index (exact equality of the lists,
the rational-arithmetic form of equality within floating tolerance). -/
theorem global_local_roundtrip (points : List Vec3) (R : Mat3) (origin : Vec3)
    (eps : ℚ) (horth : Mat3.mul R (Mat3.transpose R) = Mat3.id)
    (hdet : Mat3.det R = 1) :
    fault_local_to_global (fault_global_to_local points R origin eps).1 R origin
      = points := by
  have hinv : Mat3.mul (Mat3.transpose R) R = Mat3.id :=
    Mat3.transpose_mul_of_mul_transpose horth
  have hcomp : ∀ p : Vec3,
      Mat3.mulVec (Mat3.transpose R) (Mat3.mulVec R (p - origin)) + origin = p := by
    intro p
    rw [← Mat3.mulVec_mulVec, hinv, Mat3.id_mulVec, Vec3.sub_add_cancel]
  simp only [fault_global_to_local, fault_local_to_global, List.map_map,
    Function.comp]
  exact (List.map_congr_left fun p _ => hcomp p).trans (List.map_id points)

/-- Witness for C1 at a concrete 3-4-5 rotation about the z axis, with
origin (1, 2, 3) and three concrete points. -/
theorem global_local_roundtrip_witness :
    fault_local_to_global
      (fault_global_to_local [⟨0, 0, 0⟩, ⟨1, 0, 0⟩, ⟨0, 1, 0⟩]
        ⟨3/5, 4/5, 0, -4/5, 3/5, 0, 0, 0, 1⟩ ⟨1, 2, 3⟩ (1/100000)).1
      ⟨3/5, 4/5, 0, -4/5, 3/5, 0, 0, 0, 1⟩ ⟨1, 2, 3⟩
      = [⟨0, 0, 0⟩, ⟨1, 0, 0⟩, ⟨0, 1, 0⟩] :=
  global_local_roundtrip _ _ _ _
    (by ext <;> norm_num [Mat3.mul, Mat3.transpose, Mat3.id])
    (by norm_num [Mat3.det])

/-- C2: the forward transform returns the pair of local points and
planarity flag in which every local point at index i is R applied to the
input point at index i minus the origin; the output has exactly as many
points as the input and index order is preserved (stated through get?, so
that out-of-range indices agree as well). -/
theorem global_to_local_pointwise (points : List Vec3) (R : Mat3)
    (origin : Vec3) (eps : ℚ) :
    (fault_global_to_local points R origin eps).1.length = points.length ∧
    ∀ i : ℕ, (fault_global_to_local points R origin eps).1.get? i
      = (points.get? i).map fun p => Mat3.mulVec R (p - origin) := by
  refine ⟨by simp [fault_global_to_local], fun i => ?_⟩
  simp [fault_global_to_local]


section SortLemmas

theorem insertSorted_length (s : String) (l : List String) :
    (insertSorted s l).length = l.length + 1 := by
  induction l with
  | nil => rfl
  | cons t ts ih =>
    simp only [insertSorted]
    split
    · simp
    · simp [ih]

theorem sortStrings_length (l : List String) :
    (sortStrings l).length = l.length := by
  induction l with
  | nil => rfl
  | cons t ts ih =>
    show (insertSorted t (sortStrings ts)).length = ts.length + 1
    rw [insertSorted_length, ih]

end SortLemmas

/-- C9: in directory mode, both the local-to-global and the local-to-cubit
converters raise the count-mismatch ValueError exactly when the number of
.stl files differs from the number of .pkl files, and on matching counts
they pair the i-th element of the sorted .stl list with the i-th element of
the independently sorted .pkl list, with no check relating the paired
stems; the two converters behave identically. -/
theorem convert_dir_pairing (files : List String) :
    lg_convert_dir files =
      (if (files.filter fun f => f.endsWith ".stl").length ≠
          (files.filter fun f => f.endsWith ".pkl").length
       then .error countMismatchMsg
       else .ok ((sortStrings (files.filter fun f => f.endsWith ".stl")).zip
         (sortStrings (files.filter fun f => f.endsWith ".pkl")))) ∧
    cubit_convert_dir files = lg_convert_dir files := by
  constructor
  · simp only [lg_convert_dir, sortStrings_length]
  · rfl

/-- C10: with output_global requested, the Cubit journal for a well-formed
metadata record is some prefix free of rotate and move lines, followed by a
rotation about the persisted rotation axis through the negated
degree-converted persisted angle, then a translation by the persisted plane
origin, then the export line: rotation before translation, the inverse
order of the forward transform.  The irrational conversion factor 180 / pi
of np.degrees is abstracted as radToDeg. -/
theorem cubit_rotate_then_move (radToDeg : ℚ) (in_stl out_stl : String)
    (resolution : String) (smoothing : Option String) (si : SurfaceInfo) :
    ∃ pre : List CubitCmd,
      cubit_convert_file radToDeg in_stl out_stl resolution smoothing true
          (surface_info_dict si)
        = some (pre ++
            [CubitCmd.rotate si.rotation_axis (-(radToDeg * si.rotation_angle)),
             CubitCmd.move si.plane_origin, CubitCmd.exportStl out_stl]) ∧
      ∀ c ∈ pre, (∀ ax ang, c ≠ CubitCmd.rotate ax ang) ∧
        (∀ v, c ≠ CubitCmd.move v) := by
  cases smoothing with
  | none =>
    refine ⟨[CubitCmd.reset, CubitCmd.importStl in_stl, CubitCmd.schemeTriadvance,
      CubitCmd.sizeAll resolution, CubitCmd.meshAll], rfl, ?_⟩
    intro c hc
    fin_cases hc <;>
      exact ⟨(by intro ax ang h; cases h), (by intro v h; cases h)⟩
  | some beta =>
    refine ⟨[CubitCmd.reset, CubitCmd.importStl in_stl, CubitCmd.schemeTriadvance,
      CubitCmd.sizeAll resolution, CubitCmd.meshAll, CubitCmd.smoothScheme beta,
      CubitCmd.smoothAll], rfl, ?_⟩
    intro c hc
    fin_cases hc <;>
      exact ⟨(by intro ax ang h; cases h), (by intro v h; cases h)⟩

end FaultMesh
